import Mathlib

/-!
Shallow embedding of the canvas interaction engine of
src/canvas/src/components/Canvas.tsx (a React component).

JavaScript numbers are modelled as rationals (Rat): no claim under test
depends on floating-point rounding.  React `useState` variables become the
fields of `CanvasState`; a `setX(v)` call becomes a functional record
update.  All reads of state inside one event handler see the values from
the current render (React closure semantics), so every handler is a pure
function from the pre-handler state to the post-handler state, reading only
from its input state even when it performs several `set` calls.
-/

/-- A 2-D point, used both for world-space path points and screen offsets. -/
structure Pt where
  x : Rat
  y : Rat
deriving DecidableEq, Repr

/-- Payload of a canvas element.  In the source `CanvasElement.data` is an
untyped bag plus a `type` discriminant ("path" | "text"); elements are only
ever created with exactly these two shapes (handleMouseUp, handleTextSubmit),
so the discriminant and payload are modelled as a sum type. -/
inductive ElementData where
  | path (points : List Pt) (color : String) (size : Rat) (pressure : Rat)
  | text (content : String) (color : String) (size : Rat)
deriving DecidableEq, Repr

/-- CanvasElement of the source.  `width`/`height` are declared optional in
the source and never assigned anywhere, so they stay `none`.  The optional
booleans `selected?`/`editing?` are modelled as `Bool` with default `false`:
the source only ever tests them for truthiness, where `undefined` and
`false` behave identically. -/
structure Element where
  id : String
  data : ElementData
  x : Rat
  y : Rat
  width : Option Rat := none
  height : Option Rat := none
  selected : Bool := false
  editing : Bool := false
deriving DecidableEq, Repr

/-- DrawingSettings consumed from the collaborator (color, size, pressure). -/
structure DrawingSettings where
  color : String
  size : Rat
  pressure : Rat
deriving DecidableEq, Repr

/-- The active tool.  A string union in the source; an enum here. -/
inductive Tool where
  | select | pencil | eraser | text | pan
deriving DecidableEq, Repr

/-- The useState variables of the Canvas component that the verified
handlers read or write.  `historyIndex` is an `Int` because it is a plain
JavaScript number in the source: that 0 <= historyIndex always holds is a
claim to be proved, not a typing assumption. -/
structure CanvasState where
  isDrawing : Bool
  currentPath : List Pt
  elements : List Element
  history : List (List Element)
  historyIndex : Int
  zoom : Rat
  isPanning : Bool
  panOffset : Pt
  selectedElement : Option String
  editingText : Option String
  textInput : String
  textPosition : Pt
  isDragging : Bool
  isResizing : Bool
  resizeHandle : Option String
deriving DecidableEq, Repr

/-- The initial values of the useState hooks: empty store, history [[]],
index 0, zoom 1, no pan, nothing selected or being edited. -/
def initialState : CanvasState :=
  { isDrawing := false
    currentPath := []
    elements := []
    history := [[]]
    historyIndex := 0
    zoom := 1
    isPanning := false
    panOffset := ⟨0, 0⟩
    selectedElement := none
    editingText := none
    textInput := ""
    textPosition := ⟨0, 0⟩
    isDragging := false
    isResizing := false
    resizeHandle := none }

/-- history[i] for an Int index, JS-style; out-of-range reads never happen
in reachable states (the index invariant below), so the default [] is
irrelevant there. -/
def histGet (history : List (List Element)) (i : Int) : List Element :=
  history.getD i.toNat []

/-- Core of addToHistory: `history.slice(0, historyIndex + 1)` followed by a
push of (a copy of) the new snapshot, returning the new history and the new
index `newHistory.length - 1`.  JS `slice(0, k)` for k >= 0 is `take k`;
negative k (historyIndex <= -2) never occurs in reachable states. -/
def pushHistory (history : List (List Element)) (historyIndex : Int)
    (newElements : List Element) : List (List Element) × Int :=
  let newHistory := history.take (historyIndex + 1).toNat ++ [newElements]
  (newHistory, (newHistory.length : Int) - 1)

/-- addToHistory of the source: truncate the redo branch, append the new
snapshot, move the index to the new tail.  It does not touch `elements`. -/
def addToHistory (s : CanvasState) (newElements : List Element) : CanvasState :=
  let h := pushHistory s.history s.historyIndex newElements
  { s with history := h.1, historyIndex := h.2 }

/-- The commit operation named by the spec: every committing call site does
`setElements(newElements)` immediately followed by `addToHistory(newElements)`. -/
def commitState (s : CanvasState) (newElements : List Element) : CanvasState :=
  addToHistory { s with elements := newElements } newElements

/-- undo of the source: if historyIndex > 0, decrement the index, replace
the store with (a copy of) history[historyIndex - 1], and clear the
selected-element tracker; otherwise do nothing. -/
def undo (s : CanvasState) : CanvasState :=
  if s.historyIndex > 0 then
    { s with historyIndex := s.historyIndex - 1
             elements := histGet s.history (s.historyIndex - 1)
             selectedElement := none }
  else s

/-- redo of the source: if historyIndex < history.length - 1, increment the
index, replace the store with history[historyIndex + 1], and clear the
selected-element tracker; otherwise do nothing. -/
def redo (s : CanvasState) : CanvasState :=
  if s.historyIndex < (s.history.length : Int) - 1 then
    { s with historyIndex := s.historyIndex + 1
             elements := histGet s.history (s.historyIndex + 1)
             selectedElement := none }
  else s

/-- One history-affecting operation, as named by the spec. -/
inductive CanvasOp where
  | commit (els : List Element)
  | uop
  | rop
deriving DecidableEq, Repr

/-- Apply one operation. -/
def applyOp (s : CanvasState) : CanvasOp → CanvasState
  | .commit els => commitState s els
  | .uop => undo s
  | .rop => redo s

/-- Run a sequence of commit/undo/redo operations from a state. -/
def runOps (s : CanvasState) (ops : List CanvasOp) : CanvasState :=
  ops.foldl applyOp s

/-- A state reachable from `initialState` by commit calls only. -/
def runCommits (batches : List (List Element)) : CanvasState :=
  batches.foldl commitState initialState

/-- getMousePos: world coordinates of a client point, given the offsets of
the canvas bounding rect: world = (client - rect - panOffset) / zoom. -/
def screenToWorld (zoom : Rat) (panOffset : Pt) (rectLeft rectTop : Rat)
    (client : Pt) : Pt :=
  ⟨(client.x - rectLeft - panOffset.x) / zoom,
   (client.y - rectTop - panOffset.y) / zoom⟩

/-- The inverse transform applied by the renderer and by the text-overlay
placement: client = world * zoom + panOffset + rect. -/
def worldToScreen (zoom : Rat) (panOffset : Pt) (rectLeft rectTop : Rat)
    (world : Pt) : Pt :=
  ⟨world.x * zoom + panOffset.x + rectLeft,
   world.y * zoom + panOffset.y + rectTop⟩

/-- handleZoom.  The new zoom is Math.max(0.1, Math.min(5, zoom + delta)).
Without a zoom center (or without a mounted canvas, whose bounding rect the
two rect parameters stand for) only the zoom changes; with a center, the
pan offset is recomputed so the world point under the center stays put. -/
def handleZoom (s : CanvasState) (delta : Rat) (rectLeft rectTop : Rat)
    (zoomCenter : Option Pt) : CanvasState :=
  let newZoom := max (1/10) (min 5 (s.zoom + delta))
  match zoomCenter with
  | none => { s with zoom := newZoom }
  | some c =>
      let mouseX := (c.x - rectLeft - s.panOffset.x) / s.zoom
      let mouseY := (c.y - rectTop - s.panOffset.y) / s.zoom
      let newPanX := c.x - rectLeft - mouseX * newZoom
      let newPanY := c.y - rectTop - mouseY * newZoom
      { s with zoom := newZoom, panOffset := ⟨newPanX, newPanY⟩ }

/-- Axis-aligned bounding box as produced by getElementBounds. -/
structure Bounds where
  x : Rat
  y : Rat
  width : Rat
  height : Rat
deriving DecidableEq, Repr

/-- Math.max over a list; every call site below passes a nonempty list, so
the [] value is never produced. -/
def listMax (l : List Rat) : Rat :=
  match l with
  | [] => 0
  | h :: t => t.foldl max h

/-- Math.min over a list; every call site below passes a nonempty list. -/
def listMin (l : List Rat) : Rat :=
  match l with
  | [] => 0
  | h :: t => t.foldl min h

/-- getElementBounds.  Text measurement (the 2d context's measureText) is an
external capability: `measure = some m` when a context is available, `m line`
being the measured width of a line under the element's font; `measure = none`
selects the source's character-count fallback (max line length * size * 6).
A path with an empty point list yields `none`: in JS, Math.min/Math.max of
no arguments give an infinite box satisfied by no point, so such an element
can never be hit; `none` is treated as containing nothing below.  The
source's last fallback (a path whose `data.points` is missing) cannot arise
here because path payloads always carry a point list. -/
def getElementBounds (measure : Option (String → Rat)) (el : Element) :
    Option Bounds :=
  match el.data with
  | .text content _ size =>
      let lines := content.splitOn "\n"
      match measure with
      | some m =>
          some { x := el.x, y := el.y,
                 width := listMax (lines.map m),
                 height := (lines.length : Rat) * size * 10 }
      | none =>
          some { x := el.x, y := el.y,
                 width := (((lines.map String.length).foldl max 0 : Nat) : Rat) * size * 6,
                 height := (lines.length : Rat) * size * 10 }
  | .path points _ _ _ =>
      match points with
      | [] => none
      | _ :: _ =>
          some { x := listMin (points.map Pt.x),
                 y := listMin (points.map Pt.y),
                 width := listMax (points.map Pt.x) - listMin (points.map Pt.x),
                 height := listMax (points.map Pt.y) - listMin (points.map Pt.y) }

/-- The point-in-box test of getElementAtPosition (all four comparisons
inclusive). -/
def containsPos (b : Bounds) (pos : Pt) : Bool :=
  decide (b.x ≤ pos.x ∧ pos.x ≤ b.x + b.width ∧
          b.y ≤ pos.y ∧ pos.y ≤ b.y + b.height)

/-- Whether an element's bounds contain the given world point. -/
def elementContains (measure : Option (String → Rat)) (el : Element)
    (pos : Pt) : Bool :=
  match getElementBounds measure el with
  | some b => containsPos b pos
  | none => false

/-- getElementAtPosition: scan from the last element of the store down to
the first, return the first element whose bounds contain pos, else null. -/
def getElementAtPosition (measure : Option (String → Rat))
    (elements : List Element) (pos : Pt) : Option Element :=
  elements.reverse.find? (fun el => elementContains measure el pos)

/-- The switch on resizeHandle in the resize branch of handleMouseMove,
acting on the element's current bounds and the frame-to-frame pointer
delta.  The switch has cases only for the four corner handles; any other
handle value — including the edge handles n, s, e, w that getResizeHandle
reports — falls through with the bounds unchanged. -/
def computeResizeBounds (handle : String) (bounds : Bounds)
    (deltaX deltaY : Rat) : Bounds :=
  if handle = "se" then
    { bounds with width := max 20 (bounds.width + deltaX),
                  height := max 20 (bounds.height + deltaY) }
  else if handle = "sw" then
    { bounds with x := bounds.x + deltaX,
                  width := max 20 (bounds.width - deltaX),
                  height := max 20 (bounds.height + deltaY) }
  else if handle = "ne" then
    { bounds with width := max 20 (bounds.width + deltaX),
                  y := bounds.y + deltaY,
                  height := max 20 (bounds.height - deltaY) }
  else if handle = "nw" then
    { bounds with x := bounds.x + deltaX,
                  y := bounds.y + deltaY,
                  width := max 20 (bounds.width - deltaX),
                  height := max 20 (bounds.height - deltaY) }
  else bounds

/-- Truthiness of `textInput.trim()` as the conditionals observe it.
JS trim removes leading and trailing whitespace, so the trimmed string is
non-empty exactly when some character of the input is not whitespace; this
structural form is used because it is all the guards ever look at.  (JS
trims the full Unicode whitespace class while Char.isWhitespace covers
space, tab, CR and LF; the difference is immaterial to every statement
below, which only ever instantiates the input with spaces and letters.) -/
def trimNonempty (st : String) : Bool :=
  st.data.any (fun ch => !ch.isWhitespace)

/-- The findIndex-then-update branch of handleTextSubmit: replace the data
of the first element whose id matches and clear its editing flag; `none`
when findIndex returned -1. -/
def updateFirstText (tid : String) (newData : ElementData) :
    List Element → Option (List Element)
  | [] => none
  | el :: rest =>
      if el.id = tid then
        some ({ el with data := newData, editing := false } :: rest)
      else
        (updateFirstText tid newData rest).map (el :: ·)

/-- handleTextSubmit.  Guard: textInput.trim() truthy and editingText
truthy; otherwise the edit is cancelled with no store or history change.
On submit, an existing element carrying the edited id is updated in place,
else a new text element is appended at the end; either way the result is
committed to history and the overlay state is cleared. -/
def handleTextSubmit (settings : DrawingSettings) (s : CanvasState) :
    CanvasState :=
  match s.editingText with
  | some tid =>
      if trimNonempty s.textInput = false then
        { s with editingText := none, textInput := "" }
      else
        let newData := ElementData.text s.textInput settings.color settings.size
        let s1 :=
          match updateFirstText tid newData s.elements with
          | some newElements => commitState s newElements
          | none =>
              let newElement : Element :=
                { id := tid, data := newData,
                  x := s.textPosition.x, y := s.textPosition.y,
                  editing := false }
              commitState s (s.elements ++ [newElement])
        { s1 with editingText := none, textInput := "" }
  | none => { s with editingText := none, textInput := "" }

/-- handleKeyDown of the text overlay: Shift+Enter lets the textarea insert
a line break (no state change here), Enter submits, Escape discards the
in-progress edit. -/
def handleKeyDown (settings : DrawingSettings) (key : String)
    (shiftKey : Bool) (s : CanvasState) : CanvasState :=
  if key = "Enter" ∧ shiftKey then s
  else if key = "Enter" then handleTextSubmit settings s
  else if key = "Escape" then { s with editingText := none, textInput := "" }
  else s

/-- handleTextAreaBlur: non-blank content submits, blank content discards. -/
def handleTextAreaBlur (settings : DrawingSettings) (s : CanvasState) :
    CanvasState :=
  if trimNonempty s.textInput then handleTextSubmit settings s
  else { s with editingText := none, textInput := "" }

/-- handleMouseUp.  `newId` stands for the generated id `path-(timestamp)`.
React batches the setState calls of one handler and every read sees the
render-time values, so the pencil branch reads `elements`, `history` and
`historyIndex` from the incoming state even when the drag branch also
fired in the same call. -/
def handleMouseUp (settings : DrawingSettings) (newId : String) (tool : Tool)
    (s : CanvasState) : CanvasState :=
  if s.isPanning then { s with isPanning := false }
  else
    let s1 :=
      if s.isDragging || s.isResizing then
        let h := pushHistory s.history s.historyIndex s.elements
        { s with isDragging := false, isResizing := false, resizeHandle := none,
                 history := h.1, historyIndex := h.2 }
      else s
    if s.isDrawing ∧ tool = Tool.pencil ∧ s.currentPath ≠ [] then
      let newElement : Element :=
        { id := newId,
          data := ElementData.path s.currentPath settings.color settings.size
                    settings.pressure,
          x := 0, y := 0 }
      let newElements := s.elements ++ [newElement]
      let h := pushHistory s.history s.historyIndex newElements
      { s1 with elements := newElements, history := h.1, historyIndex := h.2,
                currentPath := [], isDrawing := false }
    else s1

/-- The guard under which redrawCanvas draws the selection rectangle and
the eight resize handles for an element:
`element.selected && element.id === selectedElement` (strict comparison
with null is false). -/
def drawsSelectionChrome (selectedElement : Option String) (el : Element) :
    Bool :=
  el.selected && decide (some el.id = selectedElement)

/-- The history-index invariant: the index is a valid position in the
history log. -/
def IndexInv (s : CanvasState) : Prop :=
  0 ≤ s.historyIndex ∧ s.historyIndex < (s.history.length : Int)

/-- Concrete path element used by the closed instances below: the pencil
stroke of the spec's example, points (0,0), (5,5), (10,0). -/
def sampleEl : Element :=
  { id := "path-1", data := .path [⟨0, 0⟩, ⟨5, 5⟩, ⟨10, 0⟩] "#000000" 4 1,
    x := 0, y := 0 }

/-- A second concrete element with a different id. -/
def sampleEl2 : Element :=
  { id := "path-2", data := .path [⟨5, 5⟩, ⟨15, 15⟩] "#ff0000" 4 1,
    x := 0, y := 0 }

/-- Concrete state as reached by committing [sampleEl] and then undoing:
two snapshots, index back at 0, store restored to the empty snapshot. -/
def sampleUndone : CanvasState :=
  { initialState with
      elements := []
      history := [[], [sampleEl]]
      historyIndex := 0 }

/-- Concrete state whose current snapshot holds an element with
selected = true while that element is also the tracked selection. -/
def sampleSelState : CanvasState :=
  { initialState with
      elements := [{ sampleEl with selected := true }]
      history := [[{ sampleEl with selected := true }],
                  [{ sampleEl with selected := true }, sampleEl2]]
      historyIndex := 1
      selectedElement := some "path-1" }

/-- Concrete mid-stroke pencil state: the spec's example points are the
in-progress path over an empty store. -/
def sampleDrawing : CanvasState :=
  { initialState with
      isDrawing := true
      currentPath := [⟨0, 0⟩, ⟨5, 5⟩, ⟨10, 0⟩] }

/-- Concrete open-overlay state: the text tool was pressed at (3, 7) and
"hi" was typed; no element carries the generated id yet. -/
def sampleEditing : CanvasState :=
  { initialState with
      editingText := some "text-1"
      textInput := "hi"
      textPosition := ⟨3, 7⟩ }

/-- Concrete drawing settings. -/
def sampleSettings : DrawingSettings := { color := "#000000", size := 4, pressure := 1 }

theorem histGet_append_last (h : List (List Element)) (els : List Element) :
    histGet (h ++ [els]) (h.length : Int) = els := by
  simp only [histGet, Int.toNat_natCast]
  rw [List.getD_eq_getElem?_getD, List.getElem?_append_right (Nat.le_refl _)]
  simp

theorem pushHistory_length (history : List (List Element)) (i : Int)
    (els : List Element) (h0 : 0 ≤ i) (h1 : i < (history.length : Int)) :
    ((pushHistory history i els).1).length = i.toNat + 2 ∧
      (pushHistory history i els).2 = i + 1 ∧
      (pushHistory history i els).1 = history.take (i.toNat + 1) ++ [els] := by
  have ht : (i + 1).toNat = i.toNat + 1 := by omega
  have hlen : (history.take (i + 1).toNat).length = i.toNat + 1 := by
    rw [List.length_take]
    omega
  refine ⟨?_, ?_, ?_⟩
  · simp only [pushHistory, List.length_append, List.length_singleton, hlen]
  · simp only [pushHistory, List.length_append, List.length_singleton, hlen]
    omega
  · simp only [pushHistory, ht]

/-- After commitState, the index sits at the new tail and points at the
just-committed snapshot, which is also the store. -/
theorem commitState_tail (s : CanvasState) (els : List Element) :
    (commitState s els).historyIndex =
        ((commitState s els).history.length : Int) - 1 ∧
      0 ≤ (commitState s els).historyIndex ∧
      (commitState s els).elements = els ∧
      histGet (commitState s els).history (commitState s els).historyIndex = els := by
  have hlen : ((pushHistory s.history s.historyIndex els).1).length =
      (s.history.take (s.historyIndex + 1).toNat).length + 1 := by
    simp [pushHistory]
  refine ⟨?_, ?_, rfl, ?_⟩
  · simp [commitState, addToHistory, pushHistory]
  · simp only [commitState, addToHistory, pushHistory]
    simp only [List.length_append, List.length_singleton]
    omega
  · simp only [commitState, addToHistory, pushHistory]
    have : ((s.history.take (s.historyIndex + 1).toNat ++ [els]).length : Int) - 1 =
        ((s.history.take (s.historyIndex + 1).toNat).length : Int) := by
      simp
    rw [this]
    exact histGet_append_last _ els

/-- Invariant of commit-only runs: the index is at the tail and the store
equals the snapshot there. -/
def CommitInv (s : CanvasState) : Prop :=
  s.historyIndex = (s.history.length : Int) - 1 ∧
    0 ≤ s.historyIndex ∧
    histGet s.history s.historyIndex = s.elements

theorem commitInv_initial : CommitInv initialState := by
  refine ⟨by simp [initialState], by simp [initialState], ?_⟩
  simp [initialState, histGet]

theorem commitInv_commit (s : CanvasState) (els : List Element) :
    CommitInv (commitState s els) := by
  obtain ⟨h1, h2, h3, h4⟩ := commitState_tail s els
  exact ⟨h1, h2, h4.trans h3.symm⟩

theorem commitInv_runCommits (batches : List (List Element)) :
    CommitInv (runCommits batches) := by
  induction batches using List.reverseRecOn with
  | nil => exact commitInv_initial
  | append_singleton bs b _ =>
      have : runCommits (bs ++ [b]) = commitState (runCommits bs) b := by
        simp [runCommits]
      rw [this]
      exact commitInv_commit _ _

theorem indexInv_initial : IndexInv initialState := by
  constructor <;> simp [initialState]

theorem indexInv_commit (s : CanvasState) (els : List Element) :
    IndexInv (commitState s els) := by
  obtain ⟨h1, h2, _, _⟩ := commitState_tail s els
  exact ⟨h2, by omega⟩

theorem indexInv_undo (s : CanvasState) (h : IndexInv s) : IndexInv (undo s) := by
  obtain ⟨h0, h1⟩ := h
  unfold undo
  split
  case isTrue hgt => exact ⟨by dsimp only; omega, by dsimp only; omega⟩
  case isFalse _ => exact ⟨h0, h1⟩

theorem indexInv_redo (s : CanvasState) (h : IndexInv s) : IndexInv (redo s) := by
  obtain ⟨h0, h1⟩ := h
  unfold redo
  split
  case isTrue hlt => exact ⟨by dsimp only; omega, by dsimp only at hlt ⊢; omega⟩
  case isFalse _ => exact ⟨h0, h1⟩

theorem indexInv_applyOp (s : CanvasState) (h : IndexInv s) (op : CanvasOp) :
    IndexInv (applyOp s op) := by
  cases op with
  | commit els => exact indexInv_commit s els
  | uop => exact indexInv_undo s h
  | rop => exact indexInv_redo s h

theorem indexInv_runOps (ops : List CanvasOp) (s : CanvasState)
    (h : IndexInv s) : IndexInv (runOps s ops) := by
  induction ops generalizing s with
  | nil => exact h
  | cons op rest ih => exact ih (applyOp s op) (indexInv_applyOp s h op)

/-- Round-trip on any state whose store matches the tail snapshot the
index points at. -/
theorem undo_redo_elements (s : CanvasState) (h : CommitInv s) :
    (redo (undo s)).elements = s.elements := by
  obtain ⟨htail, h0, hsnap⟩ := h
  unfold undo
  split
  case isTrue hgt =>
    unfold redo
    split
    case isTrue hlt =>
      show histGet s.history (s.historyIndex - 1 + 1) = s.elements
      rw [show s.historyIndex - 1 + 1 = s.historyIndex by ring]
      exact hsnap
    case isFalse hnlt =>
      exfalso
      apply hnlt
      dsimp only
      omega
  case isFalse hle =>
    unfold redo
    split
    case isTrue hlt => exfalso; omega
    case isFalse _ => rfl

/-- C1: for every element store and history reachable by a sequence of
commit (addToHistory) calls — where the store equals the snapshot at the
current history index — undo() followed by redo() restores the element
store to its exact pre-undo contents, with structural equality of every
field of every element (the store is a list of structurally compared
Element records). -/
theorem C1_undo_redo_roundtrip (batches : List (List Element)) :
    (redo (undo (runCommits batches))).elements = (runCommits batches).elements :=
  undo_redo_elements _ (commitInv_runCommits batches)

/-- C2: committing after one or more undos truncates the history to the
prefix up to and including the current index, appends the new snapshot,
and moves the index to the new last position; afterwards redo() is a
no-op.  The hypotheses are the history-index invariant, which holds in
every reachable state (C3). -/
theorem C2_commit_truncates (s : CanvasState) (els : List Element)
    (h0 : 0 ≤ s.historyIndex) (h1 : s.historyIndex < (s.history.length : Int)) :
    (commitState s els).history
        = s.history.take (s.historyIndex.toNat + 1) ++ [els] ∧
      (commitState s els).historyIndex = s.historyIndex + 1 ∧
      (commitState s els).historyIndex
        = ((commitState s els).history.length : Int) - 1 ∧
      (commitState s els).elements = els ∧
      redo (commitState s els) = commitState s els := by
  obtain ⟨hl, hi, hh⟩ := pushHistory_length s.history s.historyIndex els h0 h1
  obtain ⟨ht, _, he, _⟩ := commitState_tail s els
  refine ⟨hh, hi, ht, he, ?_⟩
  unfold redo
  rw [if_neg]
  omega

/-- Closed instance of C2: at the concrete post-undo state sampleUndone
(history [[], [sampleEl]], index 0), committing [sampleEl2] discards the
redo snapshot [sampleEl], appends the new one, and lands at the tail. -/
theorem C2_commit_truncates_witness :
    (commitState sampleUndone [sampleEl2]).history
        = sampleUndone.history.take (sampleUndone.historyIndex.toNat + 1)
            ++ [[sampleEl2]] ∧
      (commitState sampleUndone [sampleEl2]).historyIndex
        = sampleUndone.historyIndex + 1 ∧
      (commitState sampleUndone [sampleEl2]).historyIndex
        = ((commitState sampleUndone [sampleEl2]).history.length : Int) - 1 ∧
      (commitState sampleUndone [sampleEl2]).elements = [sampleEl2] ∧
      redo (commitState sampleUndone [sampleEl2])
        = commitState sampleUndone [sampleEl2] :=
  C2_commit_truncates sampleUndone [sampleEl2] (by decide) (by decide)

/-- C3: undo() at history index 0 changes nothing (store, log and index
included), redo() at the last snapshot changes nothing, and every state
reachable by any sequence of commit/undo/redo operations from the initial
state (single empty snapshot, index 0) keeps the index a valid position:
0 <= historyIndex < history.length. -/
theorem C3_noop_and_index_valid :
    (∀ s : CanvasState, s.historyIndex = 0 → undo s = s) ∧
      (∀ s : CanvasState,
        s.historyIndex = (s.history.length : Int) - 1 → redo s = s) ∧
      (∀ ops : List CanvasOp, IndexInv (runOps initialState ops)) := by
  refine ⟨?_, ?_, ?_⟩
  · intro s h
    unfold undo
    rw [if_neg]
    omega
  · intro s h
    unfold redo
    rw [if_neg]
    omega
  · intro ops
    exact indexInv_runOps ops initialState indexInv_initial

/-- Closed instance of C3: undo on the initial state and on sampleUndone
(index 0) is a no-op, redo at the tail of sampleSelState is a no-op, and a
concrete mixed run keeps the index valid. -/
theorem C3_noop_and_index_valid_witness :
    undo sampleUndone = sampleUndone ∧
      redo sampleSelState = sampleSelState ∧
      IndexInv (runOps initialState
        [CanvasOp.commit [sampleEl], CanvasOp.uop, CanvasOp.rop, CanvasOp.uop,
         CanvasOp.commit [sampleEl2]]) :=
  ⟨C3_noop_and_index_valid.1 sampleUndone (by decide),
   C3_noop_and_index_valid.2.1 sampleSelState (by decide),
   C3_noop_and_index_valid.2.2 _⟩

/-- C5: for every zoom call given a screen-space center, the world point
that lay under that center before the call maps to the same screen
position (the center itself) after the call; a zoom call without a center
changes only the zoom factor, leaving the pan offset — and every other
field — unchanged.  The zoom ≠ 0 hypothesis holds in every real state,
where zoom is clamped to [0.1, 5]. -/
theorem C5_zoom_to_cursor (s : CanvasState) (delta rectLeft rectTop : Rat)
    (c : Pt) (hz : s.zoom ≠ 0) :
    worldToScreen s.zoom s.panOffset rectLeft rectTop
        (screenToWorld s.zoom s.panOffset rectLeft rectTop c) = c ∧
      worldToScreen (handleZoom s delta rectLeft rectTop (some c)).zoom
          (handleZoom s delta rectLeft rectTop (some c)).panOffset
          rectLeft rectTop
          (screenToWorld s.zoom s.panOffset rectLeft rectTop c) = c ∧
      handleZoom s delta rectLeft rectTop none
        = { s with zoom := (handleZoom s delta rectLeft rectTop none).zoom } := by
  obtain ⟨cx, cy⟩ := c
  refine ⟨?_, ?_, rfl⟩
  · simp only [worldToScreen, screenToWorld, Pt.mk.injEq]
    constructor <;> field_simp
  · simp only [worldToScreen, screenToWorld, handleZoom, Pt.mk.injEq]
    constructor <;> ring

/-- Closed instance of C5: zooming in by 1 centered at client point
(100, 50) from the initial state keeps the world point under that center
at (100, 50), and a centerless zoom keeps the state except the factor. -/
theorem C5_zoom_to_cursor_witness :
    worldToScreen initialState.zoom initialState.panOffset 0 0
        (screenToWorld initialState.zoom initialState.panOffset 0 0 ⟨100, 50⟩)
        = ⟨100, 50⟩ ∧
      worldToScreen (handleZoom initialState 1 0 0 (some ⟨100, 50⟩)).zoom
          (handleZoom initialState 1 0 0 (some ⟨100, 50⟩)).panOffset 0 0
          (screenToWorld initialState.zoom initialState.panOffset 0 0 ⟨100, 50⟩)
        = ⟨100, 50⟩ ∧
      handleZoom initialState 1 0 0 none
        = { initialState with zoom := (handleZoom initialState 1 0 0 none).zoom } :=
  C5_zoom_to_cursor initialState 1 0 0 ⟨100, 50⟩ (by decide)

/-- C9: the zoom written by handleZoom equals
clamp(current zoom + delta, 0.1, 5.0) and always lies in [0.1, 5.0],
for every current zoom, every delta of any sign or magnitude, and with or
without a zoom center: out-of-range sums are clamped, never rejected. -/
theorem C9_zoom_clamped (s : CanvasState) (delta rectLeft rectTop : Rat)
    (zoomCenter : Option Pt) :
    (handleZoom s delta rectLeft rectTop zoomCenter).zoom
        = max (1/10) (min 5 (s.zoom + delta)) ∧
      1/10 ≤ (handleZoom s delta rectLeft rectTop zoomCenter).zoom ∧
      (handleZoom s delta rectLeft rectTop zoomCenter).zoom ≤ 5 := by
  have hz : (handleZoom s delta rectLeft rectTop zoomCenter).zoom
      = max (1/10) (min 5 (s.zoom + delta)) := by
    cases zoomCenter <;> rfl
  refine ⟨hz, ?_, ?_⟩
  · rw [hz]; exact le_max_left _ _
  · rw [hz]; exact max_le (by norm_num) (min_le_left _ _)

/-- C10: whenever undo() or redo() actually changes the history index it
also resets the selected-element tracker to none, so immediately after an
effective undo or redo the renderer's selection guard
(element.selected && element.id === selectedElement) is false for every
element of the restored snapshot — even for elements whose selected flag
is true — and no selection rectangle or resize handles are drawn.  (The
drag branch of handleMouseMove is likewise gated on a non-null
selectedElement.) -/
theorem C10_undo_redo_clear_selection (s : CanvasState) :
    ((undo s).historyIndex ≠ s.historyIndex →
      (undo s).selectedElement = none ∧
      ∀ el ∈ (undo s).elements,
        drawsSelectionChrome (undo s).selectedElement el = false) ∧
    ((redo s).historyIndex ≠ s.historyIndex →
      (redo s).selectedElement = none ∧
      ∀ el ∈ (redo s).elements,
        drawsSelectionChrome (redo s).selectedElement el = false) := by
  constructor
  · intro hch
    unfold undo at hch ⊢
    split at hch
    case isTrue hgt =>
      rw [if_pos hgt]
      refine ⟨rfl, fun el _ => ?_⟩
      simp [drawsSelectionChrome]
    case isFalse hng => exact absurd rfl hch
  · intro hch
    unfold redo at hch ⊢
    split at hch
    case isTrue hlt =>
      rw [if_pos hlt]
      refine ⟨rfl, fun el _ => ?_⟩
      simp [drawsSelectionChrome]
    case isFalse hng => exact absurd rfl hch

/-- Closed instance of C10: undoing sampleSelState (index 1 → 0) clears the
tracker, and the restored snapshot's element — whose selected flag is
true — gets no selection chrome. -/
theorem C10_undo_redo_clear_selection_witness :
    (undo sampleSelState).selectedElement = none ∧
      ∀ el ∈ (undo sampleSelState).elements,
        drawsSelectionChrome (undo sampleSelState).selectedElement el = false :=
  (C10_undo_redo_clear_selection sampleSelState).1 (by decide)

theorem find?_append_of_none {α : Type} (p : α → Bool) (l₁ l₂ : List α)
    (h : ∀ x ∈ l₁, p x = false) : (l₁ ++ l₂).find? p = l₂.find? p := by
  induction l₁ with
  | nil => rfl
  | cons a t ih =>
      rw [List.cons_append, List.find?_cons_of_neg]
      · exact ih fun x hx => h x (List.mem_cons_of_mem a hx)
      · simp [h a (List.mem_cons_self a t)]

/-- C6: hit-testing scans the store in reverse insertion order and returns
the first (topmost) element whose axis-aligned bounds contain the world
point, or none when no bounds contain it; in particular, when several
elements' boxes overlap at the point, the element whose suffix of
later-inserted elements all miss the point — e.g. the last-inserted
containing one — is returned.  Quantified over any text-measurement
capability. -/
theorem C6_hit_topmost (measure : Option (String → Rat))
    (elements : List Element) (pos : Pt) :
    (getElementAtPosition measure elements pos = none ↔
      ∀ el ∈ elements, elementContains measure el pos = false) ∧
    (∀ pre e post, elements = pre ++ e :: post →
      elementContains measure e pos = true →
      (∀ x ∈ post, elementContains measure x pos = false) →
      getElementAtPosition measure elements pos = some e) := by
  constructor
  · rw [getElementAtPosition, List.find?_eq_none]
    constructor
    · intro h el hm
      have := h el (List.mem_reverse.mpr hm)
      simpa using this
    · intro h el hm
      simpa using h el (List.mem_reverse.mp hm)
  · intro pre e post hsplit hcont hmiss
    rw [getElementAtPosition, hsplit]
    have hrev : (pre ++ e :: post).reverse
        = post.reverse ++ e :: pre.reverse := by
      simp
    rw [hrev, find?_append_of_none _ _ _
          (fun x hx => hmiss x (List.mem_reverse.mp hx))]
    exact List.find?_cons_of_pos _ hcont

/-- Closed instance of C6: the boxes of sampleEl (spanning (0,0)-(10,5))
and sampleEl2 (spanning (5,5)-(15,15)) overlap at world point (5, 5); the
hit test returns the later-inserted sampleEl2. -/
theorem C6_hit_topmost_witness :
    getElementAtPosition none [sampleEl, sampleEl2] ⟨5, 5⟩ = some sampleEl2 :=
  (C6_hit_topmost none [sampleEl, sampleEl2] ⟨5, 5⟩).2 [sampleEl] sampleEl2 []
    rfl (by norm_num [elementContains, sampleEl2, getElementBounds, listMin,
      listMax, containsPos]) (by intro x hx; cases hx)

/-- C4 as stated is refuted at a concrete input: a pointer move with the
east edge handle e and delta (+10, +10) on the box (0,0,50,50) leaves the
bounds completely unchanged — the source's switch on resizeHandle has no
case for the edge handles n, s, e, w — rather than affecting the single
x axis (which would give width 60). -/
theorem C4_edge_handle_counterexample :
    computeResizeBounds "e" ⟨0, 0, 50, 50⟩ 10 10 = ⟨0, 0, 50, 50⟩ ∧
      ¬ (computeResizeBounds "e" ⟨0, 0, 50, 50⟩ 10 10).width = 60 := by
  exact ⟨rfl, by decide⟩

/-- C4 amended: with handle se, a box (0,0,50,50) and delta (+10,+10) the
recomputed bounds are (0,0,60,60); with handle nw and the same delta they
are (10,10,40,40); starting from a box at least 20 wide and 20 tall, the
recomputed width and height never drop below 20 for any handle and any
delta (corner handles are floor-clamped by Math.max(20, _)); and the edge
handles n, s, e, w — having no case in the switch — leave the bounds
unchanged rather than resizing a single axis. -/
theorem C4_resize_rules :
    computeResizeBounds "se" ⟨0, 0, 50, 50⟩ 10 10 = ⟨0, 0, 60, 60⟩ ∧
      computeResizeBounds "nw" ⟨0, 0, 50, 50⟩ 10 10 = ⟨10, 10, 40, 40⟩ ∧
      (∀ handle bounds deltaX deltaY,
        20 ≤ (bounds : Bounds).width → 20 ≤ bounds.height →
        20 ≤ (computeResizeBounds handle bounds deltaX deltaY).width ∧
        20 ≤ (computeResizeBounds handle bounds deltaX deltaY).height) ∧
      (∀ handle bounds deltaX deltaY,
        handle = "n" ∨ handle = "s" ∨ handle = "e" ∨ handle = "w" →
        computeResizeBounds handle bounds deltaX deltaY = bounds) := by
  refine ⟨?_, ?_, ?_, ?_⟩
  · unfold computeResizeBounds
    rw [if_pos rfl]
    norm_num [Bounds.mk.injEq]
  · unfold computeResizeBounds
    rw [if_neg (by decide), if_neg (by decide), if_neg (by decide), if_pos rfl]
    norm_num [Bounds.mk.injEq]
  · intro handle b dx dy hw hh
    unfold computeResizeBounds
    split_ifs <;>
      exact ⟨by first | exact le_max_left _ _ | exact hw,
             by first | exact le_max_left _ _ | exact hh⟩
  · intro handle b dx dy hcase
    rcases hcase with h | h | h | h <;> subst h <;> rfl

/-- Closed instance of C4 (amended): even a strongly negative delta on a
minimal 20 by 20 box keeps both dimensions at the floor of 20, and the
west edge handle changes nothing. -/
theorem C4_resize_rules_witness :
    (20 ≤ (computeResizeBounds "se" ⟨0, 0, 20, 20⟩ (-100) (-100)).width ∧
      20 ≤ (computeResizeBounds "se" ⟨0, 0, 20, 20⟩ (-100) (-100)).height) ∧
    computeResizeBounds "w" ⟨0, 0, 50, 50⟩ 10 10 = ⟨0, 0, 50, 50⟩ :=
  ⟨C4_resize_rules.2.2.1 "se" ⟨0, 0, 20, 20⟩ (-100) (-100) (by norm_num) (by norm_num),
   C4_resize_rules.2.2.2 "w" ⟨0, 0, 50, 50⟩ 10 10 (Or.inr (Or.inr (Or.inr rfl)))⟩

theorem commitState_history_tail (s : CanvasState) (els : List Element)
    (h : s.historyIndex = (s.history.length : Int) - 1) :
    (commitState s els).history = s.history ++ [els] ∧
      (commitState s els).historyIndex = (s.history.length : Int) ∧
      (commitState s els).elements = els := by
  have ht : (s.historyIndex + 1).toNat = s.history.length := by omega
  refine ⟨?_, ?_, rfl⟩
  · show s.history.take (s.historyIndex + 1).toNat ++ [els] = s.history ++ [els]
    rw [ht, List.take_length]
  · show ((s.history.take (s.historyIndex + 1).toNat ++ [els]).length : Int) - 1
        = (s.history.length : Int)
    rw [ht, List.take_length]
    simp

theorem updateFirstText_eq_none (tid : String) (d : ElementData)
    (l : List Element) (h : ∀ el ∈ l, el.id ≠ tid) :
    updateFirstText tid d l = none := by
  induction l with
  | nil => rfl
  | cons a t ih =>
      simp only [updateFirstText, if_neg (h a (List.mem_cons_self a t))]
      rw [ih fun x hx => h x (List.mem_cons_of_mem a hx)]
      rfl

theorem updateFirstText_eq_some (tid : String) (d : ElementData)
    (pre : List Element) (el : Element) (post : List Element)
    (hid : el.id = tid) (hpre : ∀ x ∈ pre, x.id ≠ tid) :
    updateFirstText tid d (pre ++ el :: post)
      = some (pre ++ { el with data := d, editing := false } :: post) := by
  induction pre with
  | nil => simp only [List.nil_append, updateFirstText, if_pos hid]
  | cons a t ih =>
      simp only [List.cons_append, updateFirstText, List.append_eq,
        if_neg (hpre a (List.mem_cons_self a t))]
      rw [ih fun x hx => hpre x (List.mem_cons_of_mem a hx)]
      rfl

/-- handleTextSubmit when no stored element carries the edited id: commit
of the store with exactly one appended Text element, overlay cleared. -/
theorem handleTextSubmit_new (settings : DrawingSettings) (s : CanvasState)
    (tid : String) (hedit : s.editingText = some tid)
    (hne : trimNonempty s.textInput = true)
    (hfresh : ∀ el ∈ s.elements, el.id ≠ tid) :
    handleTextSubmit settings s
      = { commitState s (s.elements ++
            [{ id := tid,
               data := ElementData.text s.textInput settings.color settings.size,
               x := s.textPosition.x, y := s.textPosition.y,
               editing := false }])
          with editingText := none, textInput := "" } := by
  unfold handleTextSubmit
  simp only [hedit]
  rw [if_neg (by simp [hne]),
      updateFirstText_eq_none tid _ s.elements hfresh]

/-- handleTextSubmit when a stored element carries the edited id: commit
of the store with that element alone updated in place, overlay cleared. -/
theorem handleTextSubmit_update (settings : DrawingSettings) (s : CanvasState)
    (tid : String) (pre : List Element) (el : Element) (post : List Element)
    (hedit : s.editingText = some tid)
    (hne : trimNonempty s.textInput = true)
    (hsplit : s.elements = pre ++ el :: post) (hid : el.id = tid)
    (hpre : ∀ x ∈ pre, x.id ≠ tid) :
    handleTextSubmit settings s
      = { commitState s (pre ++ { el with
            data := ElementData.text s.textInput settings.color settings.size,
            editing := false } :: post)
          with editingText := none, textInput := "" } := by
  unfold handleTextSubmit
  simp only [hedit]
  rw [if_neg (by simp [hne]), hsplit,
      updateFirstText_eq_some tid _ pre el post hid hpre]

/-- C7 as stated is refuted at a concrete input: with the overlay open
(editingText text-1) and textInput a single space — non-empty content —
losing focus discards instead of committing: the store stays empty, the
history log stays [[]], no Text element is created. -/
theorem C7_blur_whitespace_counterexample :
    (handleTextAreaBlur sampleSettings
        { initialState with editingText := some "text-1", textInput := " " }).elements
      = [] ∧
    (handleTextAreaBlur sampleSettings
        { initialState with editingText := some "text-1", textInput := " " }).history
      = [[]] ∧
    " " ≠ "" := by
  refine ⟨by decide, by decide, by decide⟩

/-- C7 amended: while the text overlay is open (editingText = some tid):
pressing Escape discards the in-progress edit with the element store, the
history log and the index unchanged (no element created or modified) and
the overlay closed; losing focus with content that is non-empty after
trimming whitespace commits — creating exactly one new Text element with
the typed content and the current drawing settings when no stored element
carries the edited id, or updating that element in place when one does —
and pushes exactly one history entry (index at the tail, as in every
commit-reachable state); losing focus with blank (empty or whitespace-only)
content discards without committing.  The original wording — any non-empty
content commits — fails on whitespace-only content
(C7_blur_whitespace_counterexample). -/
theorem C7_text_overlay (settings : DrawingSettings) (s : CanvasState)
    (tid : String) (hedit : s.editingText = some tid) :
    (∀ sh, (handleKeyDown settings "Escape" sh s).elements = s.elements ∧
      (handleKeyDown settings "Escape" sh s).history = s.history ∧
      (handleKeyDown settings "Escape" sh s).historyIndex = s.historyIndex ∧
      (handleKeyDown settings "Escape" sh s).editingText = none) ∧
    (trimNonempty s.textInput = false →
      (handleTextAreaBlur settings s).elements = s.elements ∧
      (handleTextAreaBlur settings s).history = s.history ∧
      (handleTextAreaBlur settings s).editingText = none) ∧
    (trimNonempty s.textInput = true →
      s.historyIndex = (s.history.length : Int) - 1 →
      ((∀ el ∈ s.elements, el.id ≠ tid) →
        (handleTextAreaBlur settings s).elements
          = s.elements ++
            [{ id := tid,
               data := ElementData.text s.textInput settings.color settings.size,
               x := s.textPosition.x, y := s.textPosition.y,
               editing := false }] ∧
        (handleTextAreaBlur settings s).history
          = s.history ++ [(handleTextAreaBlur settings s).elements] ∧
        (handleTextAreaBlur settings s).editingText = none) ∧
      (∀ pre el post, s.elements = pre ++ el :: post → el.id = tid →
        (∀ x ∈ pre, x.id ≠ tid) →
        (handleTextAreaBlur settings s).elements
          = pre ++ { el with
              data := ElementData.text s.textInput settings.color settings.size,
              editing := false } :: post ∧
        (handleTextAreaBlur settings s).history
          = s.history ++ [(handleTextAreaBlur settings s).elements] ∧
        (handleTextAreaBlur settings s).editingText = none)) := by
  refine ⟨?_, ?_, ?_⟩
  · intro sh
    unfold handleKeyDown
    rw [if_neg (by rintro ⟨hk, -⟩; exact absurd hk (by decide)),
        if_neg (by decide), if_pos rfl]
    exact ⟨rfl, rfl, rfl, rfl⟩
  · intro hblank
    unfold handleTextAreaBlur
    rw [if_neg (by simp [hblank])]
    exact ⟨rfl, rfl, rfl⟩
  · intro hne htail
    constructor
    · intro hfresh
      have hblur : handleTextAreaBlur settings s = handleTextSubmit settings s := by
        unfold handleTextAreaBlur
        rw [if_pos hne]
      rw [hblur, handleTextSubmit_new settings s tid hedit hne hfresh]
      obtain ⟨hh, hi, he⟩ := commitState_history_tail s
        (s.elements ++
          [{ id := tid,
             data := ElementData.text s.textInput settings.color settings.size,
             x := s.textPosition.x, y := s.textPosition.y,
             editing := false }]) htail
      exact ⟨he, hh, rfl⟩
    · intro pre el post hsplit hid hpre
      have hblur : handleTextAreaBlur settings s = handleTextSubmit settings s := by
        unfold handleTextAreaBlur
        rw [if_pos hne]
      rw [hblur, handleTextSubmit_update settings s tid pre el post hedit hne hsplit hid hpre]
      obtain ⟨hh, hi, he⟩ := commitState_history_tail s
        (pre ++ { el with
            data := ElementData.text s.textInput settings.color settings.size,
            editing := false } :: post) htail
      exact ⟨he, hh, rfl⟩

/-- Closed instance of C7 (amended): on sampleEditing (overlay open with id
text-1, typed content "hi", position (3,7), empty store), Escape leaves
store and history untouched, and blur appends exactly one Text element
carrying "hi" and the sample settings with exactly one new history entry. -/
theorem C7_text_overlay_witness :
    (handleKeyDown sampleSettings "Escape" false sampleEditing).elements
        = sampleEditing.elements ∧
    (handleKeyDown sampleSettings "Escape" false sampleEditing).history
        = sampleEditing.history ∧
    (handleTextAreaBlur sampleSettings sampleEditing).elements
        = sampleEditing.elements ++
          [{ id := "text-1",
             data := ElementData.text sampleEditing.textInput
               sampleSettings.color sampleSettings.size,
             x := sampleEditing.textPosition.x, y := sampleEditing.textPosition.y,
             editing := false }] ∧
    (handleTextAreaBlur sampleSettings sampleEditing).history
        = sampleEditing.history
            ++ [(handleTextAreaBlur sampleSettings sampleEditing).elements] := by
  have h := C7_text_overlay sampleSettings sampleEditing "text-1" rfl
  have hnew := h.2.2 (by decide) (by decide) |>.1 (by intro el hel; cases hel)
  exact ⟨(h.1 false).1, (h.1 false).2.1, hnew.1, hnew.2.1⟩

/-- C8: with the pencil active, a non-empty in-progress point sequence and
no other gesture in flight, releasing the mouse appends exactly one new
Path element — holding the in-progress points and the current drawing
settings — at the end of the store with all prior elements unchanged and
in order, pushes exactly one history entry (index at the tail, as in every
commit-reachable state), and clears the in-progress sequence and the
drawing flag. -/
theorem C8_pencil_release (settings : DrawingSettings) (newId : String)
    (s : CanvasState)
    (hp : s.isPanning = false) (hd : s.isDragging = false)
    (hr : s.isResizing = false) (hdraw : s.isDrawing = true)
    (hpath : s.currentPath ≠ [])
    (htail : s.historyIndex = (s.history.length : Int) - 1) :
    (handleMouseUp settings newId Tool.pencil s).elements
        = s.elements ++
          [{ id := newId,
             data := ElementData.path s.currentPath settings.color
               settings.size settings.pressure,
             x := 0, y := 0 }] ∧
      (handleMouseUp settings newId Tool.pencil s).history
        = s.history ++ [(handleMouseUp settings newId Tool.pencil s).elements] ∧
      (handleMouseUp settings newId Tool.pencil s).historyIndex
        = (s.history.length : Int) ∧
      (handleMouseUp settings newId Tool.pencil s).currentPath = [] ∧
      (handleMouseUp settings newId Tool.pencil s).isDrawing = false := by
  have ht : (s.historyIndex + 1).toNat = s.history.length := by omega
  have hstep : handleMouseUp settings newId Tool.pencil s
      = { s with
            elements := s.elements ++
              [{ id := newId,
                 data := ElementData.path s.currentPath settings.color
                   settings.size settings.pressure,
                 x := 0, y := 0 }],
            history := (pushHistory s.history s.historyIndex
              (s.elements ++
                [{ id := newId,
                   data := ElementData.path s.currentPath settings.color
                     settings.size settings.pressure,
                   x := 0, y := 0 }])).1,
            historyIndex := (pushHistory s.history s.historyIndex
              (s.elements ++
                [{ id := newId,
                   data := ElementData.path s.currentPath settings.color
                     settings.size settings.pressure,
                   x := 0, y := 0 }])).2,
            currentPath := [], isDrawing := false } := by
    unfold handleMouseUp
    simp only [hp, hd, hr, hdraw, hpath, Bool.or_self, Bool.false_eq_true,
      ite_false, ite_true, ne_eq, not_false_iff, and_true, true_and, and_self,
      if_false, if_true]
  rw [hstep]
  refine ⟨rfl, ?_, ?_, rfl, rfl⟩
  · show (pushHistory s.history s.historyIndex _).1 = s.history ++ [_]
    simp only [pushHistory, ht, List.take_length]
  · show (pushHistory s.history s.historyIndex _).2 = (s.history.length : Int)
    simp only [pushHistory, ht, List.take_length]
    simp

/-- Closed instance of C8: releasing the pencil on sampleDrawing — the
spec's example stroke (0,0), (5,5), (10,0) in progress over an empty
store — appends exactly one Path element, pushes exactly one history
entry, and clears the transient stroke state. -/
theorem C8_pencil_release_witness :
    (handleMouseUp sampleSettings "path-9" Tool.pencil sampleDrawing).elements
        = sampleDrawing.elements ++
          [{ id := "path-9",
             data := ElementData.path sampleDrawing.currentPath
               sampleSettings.color sampleSettings.size sampleSettings.pressure,
             x := 0, y := 0 }] ∧
      (handleMouseUp sampleSettings "path-9" Tool.pencil sampleDrawing).history
        = sampleDrawing.history
            ++ [(handleMouseUp sampleSettings "path-9" Tool.pencil sampleDrawing).elements] ∧
      (handleMouseUp sampleSettings "path-9" Tool.pencil sampleDrawing).currentPath
        = [] :=
  have h := C8_pencil_release sampleSettings "path-9" sampleDrawing
    (by decide) (by decide) (by decide) (by decide) (by decide) (by decide)
  ⟨h.1, h.2.1, h.2.2.2.1⟩
